import Mathlib

/-!
Shallow embedding of the Piomatter matrix-map library
(`src/include/piomatter/matrixmap.h` and `custom_orientation.h`).

Conventions: C++ `int` is modelled as `Int` (truncating division `Int.tdiv`
and remainder `Int.tmod`), C++ `size_t` as `Nat`; functions that `throw`
return `Except String`.  The doubling loops (`while (max_count <
pixels_across) ...`) are modelled by well-founded recursion; the extra
`0 < max_count` in the recursion guard only serves termination and is
unreachable from the call sites, where the counter starts at a power of two
and only doubles.
-/

/-- Linear framebuffer offset for the normal orientation:
`x + width * y` (source: `orientation_normal`). -/
def orientation_normal (width _height x y : Int) : Int :=
  x + width * y

/-- Offset for the 180-degree rotation (source: `orientation_r180`). -/
def orientation_r180 (width height x y : Int) : Int :=
  orientation_normal width height (width - x - 1) (height - y - 1)

/-- Offset for the counter-clockwise rotation (source: `orientation_ccw`). -/
def orientation_ccw (width height x y : Int) : Int :=
  orientation_normal height width y (width - x - 1)

/-- Offset for the clockwise rotation (source: `orientation_cw`). -/
def orientation_cw (width height x y : Int) : Int :=
  orientation_normal height width (y - height - 1) x

/-- Custom multi-panel orientation for a 192x64 canvas of 64x32 sub-panels
with the top row of panels reversed (source: `custom_panel_orientation` in
`custom_orientation.h`). -/
def custom_panel_orientation (width _height x y : Int) : Int :=
  let panel_x := x.tdiv 64
  let panel_y := y.tdiv 32
  let local_x := x.tmod 64
  let local_y := y.tmod 32
  let panel_x' := if panel_y = 0 then 2 - panel_x else panel_x
  let new_x := panel_x' * 64 + local_x
  let new_y := panel_y * 32 + local_y
  new_x + width * new_y

/-- The per-position coordinate computation inside the `make_matrixmap`
double loop: given the row-select state `i` and the column position `j`,
produce the `(x, y0, y1)` triple of source lines 63-75. -/
def mapEntry (width panel_height half_panel_height : Nat) (serpentine : Bool)
    (i j : Nat) : Int × Int × Int :=
  let panel_no := j / width
  let panel_idx := j % width
  if serpentine ∧ panel_no % 2 = 1 then
    ((width : Int) - panel_idx - 1,
     ((panel_no : Int) + 1) * panel_height - i - 1,
     ((panel_no : Int) + 1) * panel_height - i - half_panel_height - 1)
  else
    ((panel_idx : Int),
     (panel_no : Int) * panel_height + i,
     (panel_no : Int) * panel_height + i + half_panel_height)

/-- A pixel-address map, `using matrix_map = std::vector<int>`. -/
abbrev matrix_map := List Int

/-- Builder for the pixel-address map (source: `make_matrixmap`).  Walks the
row-select states `i` and column positions `j`, emitting the two callback
results per position in source order. -/
def make_matrixmap (width height n_addr_lines : Nat) (serpentine : Bool)
    (cb : Int → Int → Int → Int → Int) : Except String matrix_map :=
  let panel_height := 2 <<< n_addr_lines
  if height % panel_height ≠ 0 then
    .error "Overall height does not evenly divide calculated panel height"
  else
    let half_panel_height := 1 <<< n_addr_lines
    let v_panels := height / panel_height
    let pixels_across := width * v_panels
    .ok ((List.range half_panel_height).flatMap (fun i =>
      (List.range pixels_across).flatMap (fun j =>
        let e := mapEntry width panel_height half_panel_height serpentine i j
        [cb width height e.1 e.2.1, cb width height e.1 e.2.2])))

/-- One schedule step, `struct schedule_entry { uint32_t shift, active_time; }`. -/
structure schedule_entry where
  shift : Nat
  active_time : Nat
deriving DecidableEq, Repr

/-- A schedule, `using schedule = std::vector<schedule_entry>`. -/
abbrev schedule := List schedule_entry

/-- A schedule sequence, `using schedule_sequence = std::vector<schedule>`. -/
abbrev schedule_sequence := List (List schedule_entry)

/-- The doubling loop of `make_simple_schedule`:
`while (max_count < pixels_across) max_count <<= 1;`. -/
def growMax (pixels_across max_count : Nat) : Nat :=
  if _h : 0 < max_count ∧ max_count < pixels_across then
    growMax pixels_across (max_count <<< 1)
  else
    max_count
  termination_by pixels_across - max_count
  decreasing_by
    simp only [Nat.shiftLeft_eq]
    omega

/-- The joint doubling loop of `make_temporal_dither_schedule`:
`while (max_count < pixels_across) { max_count <<= 1; temporal_count <<= 1; }`. -/
def growPair (pixels_across max_count temporal_count : Nat) : Nat × Nat :=
  if _h : 0 < max_count ∧ max_count < pixels_across then
    growPair pixels_across (max_count <<< 1) (temporal_count <<< 1)
  else
    (max_count, temporal_count)
  termination_by pixels_across - max_count
  decreasing_by
    simp only [Nat.shiftLeft_eq]
    omega

/-- Builder for the single-schedule sequence (source: `make_simple_schedule`). -/
def make_simple_schedule (n_planes : Int) (pixels_across : Nat) :
    Except String (List (List schedule_entry)) :=
  if n_planes < 1 ∨ n_planes > 10 then
    .error "n_planes out of range"
  else
    let max_count := growMax pixels_across (1 <<< n_planes.toNat)
    .ok [(List.range n_planes.toNat).map
      (fun i => ⟨10 - i, max_count >>> i⟩)]

/-- Builder for the temporal-dither schedule sequence
(source: `make_temporal_dither_schedule`). -/
def make_temporal_dither_schedule (n_planes : Int) (pixels_across : Nat)
    (n_temporal_planes : Int) : Except String (List (List schedule_entry)) :=
  if n_planes < 1 ∨ n_planes > 10 then
    .error "n_planes out of range"
  else if n_temporal_planes = 0 then
    make_simple_schedule n_planes pixels_across
  else if n_temporal_planes ≥ n_planes then
    .error "n_temporal_planes out of range"
  else if n_temporal_planes ≠ 2 ∧ n_temporal_planes ≠ 4 then
    .error "n_temporal_planes out of range"
  else
    let n_real_planes := (n_planes - n_temporal_planes).toNat
    let pair := growPair pixels_across (2 <<< n_real_planes) 1
    let base_sched := (List.range n_real_planes).map
      (fun j => (⟨10 - j, pair.1 >>> j⟩ : schedule_entry))
    .ok ((List.range n_temporal_planes.toNat).map
      (fun i => base_sched ++ [⟨10 - (n_real_planes + i), pair.2 <<< i⟩]))

/-- The `matrix_geometry` record (source: `struct matrix_geometry`), fields
in source member order. -/
structure matrix_geometry where
  pixels_across : Nat
  n_addr_lines : Nat
  n_lanes : Nat
  width : Nat
  height : Nat
  map : List Int
  schedules : List (List schedule_entry)
deriving Repr

/-- The `matrix_geometry` constructor taking an explicit map and schedule
sequence (source lines 171-182); it checks only that the map size matches
`(n_lanes << n_addr_lines) * pixels_across`. -/
def matrix_geometry.ofMapSchedules (pixels_across n_addr_lines : Nat)
    (width height : Nat) (map : List Int) (n_lanes : Nat)
    (schedules : List (List schedule_entry)) : Except String matrix_geometry :=
  let pixels_down := n_lanes <<< n_addr_lines
  if map.length ≠ pixels_down * pixels_across then
    .error "map size does not match calculated pixel count"
  else
    .ok ⟨pixels_across, n_addr_lines, n_lanes, width, height, map, schedules⟩

/-- The `matrix_geometry` constructor taking an explicit map, a plane count
and a temporal dither count (source lines 163-169).  The source passes
`(n_planes, n_temporal_dither, pixels_across)` to
`make_temporal_dither_schedule(n_planes, pixels_across, n_temporal_planes)`,
so the temporal-dither count lands in the `pixels_across` parameter and the
pixel count lands in the `n_temporal_planes` parameter. -/
def matrix_geometry.ofMapPlanes (pixels_across n_addr_lines : Nat)
    (n_planes : Int) (width height : Nat) (map : List Int) (n_lanes : Nat)
    (n_temporal_dither : Nat) : Except String matrix_geometry :=
  match make_temporal_dither_schedule n_planes n_temporal_dither
      (pixels_across : Int) with
  | .error e => .error e
  | .ok s =>
      matrix_geometry.ofMapSchedules pixels_across n_addr_lines width height
        map n_lanes s


/-- Unfolding step of the doubling loop while the bound is not reached. -/
theorem growMax_step (p m : Nat) (h0 : 0 < m) (h1 : m < p) :
    growMax p m = growMax p (m <<< 1) := by
  rw [growMax]
  exact dif_pos ⟨h0, h1⟩

/-- The doubling loop stops once the guard fails. -/
theorem growMax_stop (p m : Nat) (h : ¬(0 < m ∧ m < p)) :
    growMax p m = m := by
  rw [growMax]
  exact dif_neg h

/-- Unfolding step of the joint doubling loop. -/
theorem growPair_step (p m c : Nat) (h0 : 0 < m) (h1 : m < p) :
    growPair p m c = growPair p (m <<< 1) (c <<< 1) := by
  rw [growPair]
  exact dif_pos ⟨h0, h1⟩

/-- The joint doubling loop stops once the guard fails. -/
theorem growPair_stop (p m c : Nat) (h : ¬(0 < m ∧ m < p)) :
    growPair p m c = (m, c) := by
  rw [growPair]
  exact dif_neg h

/-- Characterisation of the doubling loop: starting from a positive value
`m` it returns `m * 2 ^ t` for the least `t` making the result at least
`p`. -/
theorem growMax_spec (p : Nat) :
    ∀ k m, p - m ≤ k → 0 < m →
      ∃ t : Nat, growMax p m = m * 2 ^ t ∧ p ≤ m * 2 ^ t ∧
        ∀ u : Nat, p ≤ m * 2 ^ u → t ≤ u := by
  intro k
  induction k with
  | zero =>
    intro m hk hm
    refine ⟨0, ?_, ?_, fun u _ => Nat.zero_le u⟩
    · rw [growMax_stop p m (by omega)]
      simp
    · simpa using by omega
  | succ k ih =>
    intro m hk hm
    by_cases hlt : m < p
    · have hm2 : m <<< 1 = m * 2 := by rw [Nat.shiftLeft_eq, pow_one]
      obtain ⟨t, h1, h2, h3⟩ := ih (m * 2) (by omega) (by omega)
      refine ⟨t + 1, ?_, ?_, ?_⟩
      · rw [growMax_step p m hm hlt, hm2, h1, pow_succ]
        ring
      · calc p ≤ m * 2 * 2 ^ t := h2
          _ = m * 2 ^ (t + 1) := by rw [pow_succ]; ring
      · intro u hu
        match u with
        | 0 => simp at hu; omega
        | u' + 1 =>
          have hu' : p ≤ m * 2 * 2 ^ u' := by
            calc p ≤ m * 2 ^ (u' + 1) := hu
              _ = m * 2 * 2 ^ u' := by rw [pow_succ]; ring
          have := h3 u' hu'
          omega
    · refine ⟨0, ?_, ?_, fun u _ => Nat.zero_le u⟩
      · rw [growMax_stop p m (by omega)]
        simp
      · simpa using by omega

/-- Characterisation of the joint doubling loop: both counters are
multiplied by the same `2 ^ t`, with `t` least such that the first counter
reaches `p`. -/
theorem growPair_spec (p : Nat) :
    ∀ k m c, p - m ≤ k → 0 < m →
      ∃ t : Nat, growPair p m c = (m * 2 ^ t, c * 2 ^ t) ∧ p ≤ m * 2 ^ t ∧
        ∀ u : Nat, p ≤ m * 2 ^ u → t ≤ u := by
  intro k
  induction k with
  | zero =>
    intro m c hk hm
    refine ⟨0, ?_, ?_, fun u _ => Nat.zero_le u⟩
    · rw [growPair_stop p m c (by omega)]
      simp
    · simpa using by omega
  | succ k ih =>
    intro m c hk hm
    by_cases hlt : m < p
    · have hm2 : ∀ a : Nat, a <<< 1 = a * 2 := fun a => by
        rw [Nat.shiftLeft_eq, pow_one]
      obtain ⟨t, h1, h2, h3⟩ := ih (m * 2) (c * 2) (by omega) (by omega)
      refine ⟨t + 1, ?_, ?_, ?_⟩
      · rw [growPair_step p m c hm hlt, hm2, hm2, h1, pow_succ]
        simp only [Prod.mk.injEq]
        constructor <;> ring
      · calc p ≤ m * 2 * 2 ^ t := h2
          _ = m * 2 ^ (t + 1) := by rw [pow_succ]; ring
      · intro u hu
        match u with
        | 0 => simp at hu; omega
        | u' + 1 =>
          have hu' : p ≤ m * 2 * 2 ^ u' := by
            calc p ≤ m * 2 ^ (u' + 1) := hu
              _ = m * 2 * 2 ^ u' := by rw [pow_succ]; ring
          have := h3 u' hu'
          omega
    · refine ⟨0, ?_, ?_, fun u _ => Nat.zero_le u⟩
      · rw [growPair_stop p m c (by omega)]
        simp
      · simpa using by omega

/-- Length of a `flatMap` over `List.range` when every block has the same
length. -/
theorem length_flatMap_range {α : Type} (c : Nat) (f : Nat → List α) :
    ∀ n, (∀ a, a < n → (f a).length = c) →
      ((List.range n).flatMap f).length = n * c := by
  intro n
  induction n with
  | zero => simp
  | succ k ih =>
    intro h
    rw [List.range_succ, List.flatMap_append, List.length_append,
        ih (fun a ha => h a (by omega))]
    simp [h k (by omega), Nat.succ_mul]

/-- Indexing into a `flatMap` over `List.range` with constant block length:
position `i * c + r` lands at offset `r` of block `i`. -/
theorem getElem?_flatMap_range {α : Type} (c : Nat) (f : Nat → List α)
    (i r : Nat) (hr : r < c) :
    ∀ n, (∀ a, a < n → (f a).length = c) → i < n →
      ((List.range n).flatMap f)[i * c + r]? = (f i)[r]? := by
  intro n
  induction n with
  | zero => intro _ h; omega
  | succ k ih =>
    intro h hik
    rw [List.range_succ, List.flatMap_append]
    by_cases hi : i < k
    · rw [List.getElem?_append_left]
      · exact ih (fun a ha => h a (by omega)) hi
      · rw [length_flatMap_range c f k (fun a ha => h a (by omega))]
        calc i * c + r < i * c + c := by omega
          _ = (i + 1) * c := (Nat.succ_mul i c).symm
          _ ≤ k * c := Nat.mul_le_mul_right c hi
    · have hik' : i = k := by omega
      subst hik'
      rw [List.getElem?_append_right
            (by rw [length_flatMap_range c f i (fun a ha => h a (by omega))]
                omega)]
      rw [length_flatMap_range c f i (fun a ha => h a (by omega))]
      simp [Nat.add_sub_cancel_left]

/-- C2: for the custom multi-panel transform on a 192x64 canvas, the input
(10, 10) does not map to offset 2090: it maps to 2058. -/
theorem C2_counterexample : custom_panel_orientation 192 64 10 10 ≠ 2090 := by
  decide

/-- C2 (amended): the custom transform maps (10, 10) to offset 2058 (panel
(0, 0) is remapped to panel index 2 with the position inside the panel kept,
giving coordinates (138, 10)), and maps (10, 40) to offset 7690. -/
theorem C2_custom_offsets :
    custom_panel_orientation 192 64 10 10 = 2058 ∧
    custom_panel_orientation 192 64 10 40 = 7690 := by
  decide

/-- C10: for every in-bounds input, the clockwise orientation transform
returns `(y - height - 1) + height * x`, and whenever `x = 0` that offset is
negative, hence outside the valid framebuffer range. -/
theorem C10_cw_negative (w h x y : Int) (hx0 : 0 ≤ x) (hxw : x < w)
    (hy0 : 0 ≤ y) (hyh : y < h) :
    orientation_cw w h x y = (y - h - 1) + h * x ∧
      (x = 0 → orientation_cw w h x y < 0) := by
  constructor
  · simp [orientation_cw, orientation_normal]
  · intro hx
    subst hx
    simp only [orientation_cw, orientation_normal]
    omega

/-- C10 witness at `(w, h, x, y) = (4, 4, 0, 1)`. -/
theorem C10_cw_negative_witness :
    orientation_cw 4 4 0 1 = (1 - 4 - 1) + 4 * 0 ∧
      ((0 : Int) = 0 → orientation_cw 4 4 0 1 < 0) :=
  C10_cw_negative 4 4 0 1 (by decide) (by decide) (by decide) (by decide)

/-- C9: the explicit-map constructor of `matrix_geometry` fails exactly when
the map length differs from `(n_lanes << n_addr_lines) * pixels_across`; on
success the geometry holds precisely the given fields (no other validation),
so its map length equals `(n_lanes << n_addr_lines) * pixels_across`. -/
theorem C9_geometry_map_size (pa na w h : Nat) (map : List Int) (nl : Nat)
    (ss : List (List schedule_entry)) :
    ((∃ e, matrix_geometry.ofMapSchedules pa na w h map nl ss = .error e) ↔
      map.length ≠ (nl <<< na) * pa) ∧
    (∀ g, matrix_geometry.ofMapSchedules pa na w h map nl ss = .ok g →
      g = ⟨pa, na, nl, w, h, map, ss⟩ ∧
      g.map.length = (nl <<< na) * g.pixels_across) := by
  by_cases hc : map.length ≠ (nl <<< na) * pa
  · constructor
    · simp [matrix_geometry.ofMapSchedules, hc]
    · intro g hg
      simp [matrix_geometry.ofMapSchedules, hc] at hg
  · constructor
    · simp [matrix_geometry.ofMapSchedules, hc]
    · intro g hg
      simp only [matrix_geometry.ofMapSchedules, if_neg hc, Except.ok.injEq] at hg
      subst hg
      refine ⟨rfl, ?_⟩
      simpa using by omega

/-- C8: `make_simple_schedule` fails exactly when the plane count is outside
`[1, 10]`, and `make_temporal_dither_schedule` fails exactly when the plane
count is outside `[1, 10]`, the temporal plane count is not in `{0, 2, 4}`,
or it is nonzero and at least the plane count. -/
theorem C8_range_errors (n : Int) (p : Nat) (t : Int) :
    ((∃ e, make_simple_schedule n p = .error e) ↔ (n < 1 ∨ n > 10)) ∧
    ((∃ e, make_temporal_dither_schedule n p t = .error e) ↔
      (n < 1 ∨ n > 10 ∨ (t ≠ 0 ∧ t ≠ 2 ∧ t ≠ 4) ∨ (t ≠ 0 ∧ t ≥ n))) := by
  constructor
  · by_cases hc : n < 1 ∨ n > 10
    · simp [make_simple_schedule, hc]
    · simp [make_simple_schedule, hc]
  · by_cases h1 : n < 1 ∨ n > 10
    · simp [make_temporal_dither_schedule, h1]
      omega
    · rw [make_temporal_dither_schedule, if_neg h1]
      by_cases h2 : t = 0
      · subst h2
        simp [make_simple_schedule, h1]
      · rw [if_neg h2]
        by_cases h3 : t ≥ n
        · rw [if_pos h3]
          simp [h1, h2, h3]
        · rw [if_neg h3]
          by_cases h4 : t ≠ 2 ∧ t ≠ 4
          · rw [if_pos h4]
            simp [h1, h2, h3, h4]
          · rw [if_neg h4]
            simp [h1, h2, h3, h4]

/-- C8 witness: plane count 0 is rejected by `make_simple_schedule`, and
temporal plane count 3 is rejected by `make_temporal_dither_schedule`. -/
theorem C8_range_errors_witness :
    (∃ e, make_simple_schedule 0 192 = .error e) ∧
    (∃ e, make_temporal_dither_schedule 5 192 3 = .error e) :=
  ⟨(C8_range_errors 0 192 0).1.mpr (by decide),
   (C8_range_errors 5 192 3).2.mpr (by decide)⟩

/-- C1: the `matrix_geometry` constructor taking a plane count and a
temporal dither count passes its arguments to
`make_temporal_dither_schedule` in the wrong order (the temporal dither
count as `pixels_across` and the pixel count as `n_temporal_planes`), so on
the valid configuration `pixels_across = 192`, `n_addr_lines = 4`,
`n_planes = 5`, `n_lanes = 2`, `n_temporal_dither = 2` it throws a range
error, while `make_temporal_dither_schedule(5, 192, 2)` itself succeeds. -/
theorem C1_ctor_swapped_args :
    matrix_geometry.ofMapPlanes 192 4 5 192 64 (List.replicate 6144 0) 2 2 =
      .error "n_temporal_planes out of range" ∧
    make_temporal_dither_schedule 5 192 2 =
      .ok [[⟨10, 256⟩, ⟨9, 128⟩, ⟨8, 64⟩, ⟨7, 16⟩],
           [⟨10, 256⟩, ⟨9, 128⟩, ⟨8, 64⟩, ⟨6, 32⟩]] := by
  constructor
  · rfl
  · have hgp : growPair 192 (2 <<< Int.toNat 3) 1 = (256, 16) := by
      show growPair 192 16 1 = (256, 16)
      norm_num [growPair_step, growPair_stop, Nat.shiftLeft_eq]
    rw [make_temporal_dither_schedule, if_neg (by decide), if_neg (by decide),
        if_neg (by decide), if_neg (by decide)]
    norm_num [hgp]
    decide

/-- C4: for every plane count in `[1, 10]` and every pixel count,
`make_simple_schedule` returns one schedule whose entry `i` is
`(10 - i, maxCount >> i)`, where `maxCount` is the smallest value reachable
by repeated doubling from `2 ^ planeCount` that is at least `pixelsAcross`;
successive dwell times halve, and for plane count 5 with 192 pixels across
the schedule is `(10,256),(9,128),(8,64),(7,32),(6,16)`. -/
theorem C4_simple_schedule :
    (∀ (n : Int) (p : Nat), 1 ≤ n → n ≤ 10 →
      ∃ sched, make_simple_schedule n p = .ok [sched] ∧
        sched.length = n.toNat ∧
        (∀ i (hi : i < sched.length),
          sched.get ⟨i, hi⟩ =
            (⟨10 - i, growMax p (1 <<< n.toNat) >>> i⟩ : schedule_entry)) ∧
        (∃ t : Nat, growMax p (1 <<< n.toNat) = (1 <<< n.toNat) * 2 ^ t) ∧
        p ≤ growMax p (1 <<< n.toNat) ∧
        (∀ u : Nat, p ≤ (1 <<< n.toNat) * 2 ^ u →
          growMax p (1 <<< n.toNat) ≤ (1 <<< n.toNat) * 2 ^ u) ∧
        (∀ i (hi : i + 1 < sched.length),
          (sched.get ⟨i + 1, hi⟩).active_time =
            (sched.get ⟨i, Nat.lt_of_succ_lt hi⟩).active_time / 2)) ∧
    make_simple_schedule 5 192 =
      .ok [[⟨10, 256⟩, ⟨9, 128⟩, ⟨8, 64⟩, ⟨7, 32⟩, ⟨6, 16⟩]] := by
  constructor
  · intro n p h1 h2
    have hcond : ¬(n < 1 ∨ n > 10) := by omega
    have hm : 0 < 1 <<< n.toNat := by
      rw [Nat.shiftLeft_eq]
      positivity
    obtain ⟨t, ht1, ht2, ht3⟩ :=
      growMax_spec p p (1 <<< n.toNat) (Nat.sub_le _ _) hm
    refine ⟨(List.range n.toNat).map
        (fun i => ⟨10 - i, growMax p (1 <<< n.toNat) >>> i⟩),
      ?_, ?_, ?_, ⟨t, ht1⟩, ?_, ?_, ?_⟩
    · simp [make_simple_schedule, hcond]
    · simp
    · intro i hi
      simp
    · rw [ht1]
      exact ht2
    · intro u hu
      rw [ht1]
      exact Nat.mul_le_mul_left _ (Nat.pow_le_pow_right (by norm_num) (ht3 u hu))
    · intro i hi
      simp [Nat.shiftRight_succ]
  · have hgm : growMax 192 (1 <<< Int.toNat 5) = 256 := by
      show growMax 192 32 = 256
      norm_num [growMax_step, growMax_stop, Nat.shiftLeft_eq]
    rw [make_simple_schedule, if_neg (by decide)]
    norm_num [hgm]
    decide

/-- C4 witness at plane count 3, pixel count 5. -/
theorem C4_simple_schedule_witness :
    ∃ sched, make_simple_schedule 3 5 = .ok [sched] ∧
      sched.length = (3 : Int).toNat := by
  obtain ⟨s, hs, hlen, _⟩ := C4_simple_schedule.1 3 5 (by decide) (by decide)
  exact ⟨s, hs, hlen⟩

/-- C5: for plane count in `[1, 10]`, temporal plane count in `{2, 4}` and
less than the plane count, `make_temporal_dither_schedule` returns exactly
`temporalPlaneCount` schedules, each the shared base entries
`(10 - j, maxCount >> j)` for `j < realPlaneCount` followed by one extra
entry `(10 - (realPlaneCount + i), temporalCount << i)`; `maxCount` starts
at `2 * 2 ^ realPlaneCount`, `temporalCount` at 1, both doubled together
until `maxCount` reaches `pixelsAcross`. -/
theorem C5_temporal_dither (n : Int) (p : Nat) (t : Int)
    (h1 : 1 ≤ n) (h2 : n ≤ 10) (h3 : t = 2 ∨ t = 4) (h4 : t < n) :
    ∃ seq, make_temporal_dither_schedule n p t = .ok seq ∧
      seq.length = t.toNat ∧
      (∀ i (hi : i < seq.length),
        seq.get ⟨i, hi⟩ =
          (List.range (n - t).toNat).map
            (fun j => (⟨10 - j,
              (growPair p (2 <<< (n - t).toNat) 1).1 >>> j⟩ : schedule_entry))
          ++ [⟨10 - ((n - t).toNat + i),
               (growPair p (2 <<< (n - t).toNat) 1).2 <<< i⟩]) ∧
      (∃ u : Nat,
        growPair p (2 <<< (n - t).toNat) 1 =
          ((2 <<< (n - t).toNat) * 2 ^ u, 2 ^ u) ∧
        p ≤ (2 <<< (n - t).toNat) * 2 ^ u ∧
        ∀ v : Nat, p ≤ (2 <<< (n - t).toNat) * 2 ^ v → u ≤ v) := by
  have hc1 : ¬(n < 1 ∨ n > 10) := by omega
  have hc2 : ¬(t = 0) := by omega
  have hc3 : ¬(t ≥ n) := by omega
  have hc4 : ¬(t ≠ 2 ∧ t ≠ 4) := by
    rcases h3 with h | h <;> simp [h]
  have hm : 0 < 2 <<< (n - t).toNat := by
    rw [Nat.shiftLeft_eq]
    positivity
  obtain ⟨u, hu1, hu2, hu3⟩ :=
    growPair_spec p p (2 <<< (n - t).toNat) 1 (Nat.sub_le _ _) hm
  refine ⟨(List.range t.toNat).map (fun i =>
      (List.range (n - t).toNat).map
        (fun j => (⟨10 - j,
          (growPair p (2 <<< (n - t).toNat) 1).1 >>> j⟩ : schedule_entry))
      ++ [⟨10 - ((n - t).toNat + i),
           (growPair p (2 <<< (n - t).toNat) 1).2 <<< i⟩]),
    ?_, ?_, ?_, ⟨u, ?_, hu2, hu3⟩⟩
  · rw [make_temporal_dither_schedule, if_neg hc1, if_neg hc2, if_neg hc3,
      if_neg hc4]
  · simp
  · intro i hi
    simp
  · rw [hu1, one_mul]

/-- C5 witness at plane count 5, pixel count 192, temporal plane count 2. -/
theorem C5_temporal_dither_witness :
    ∃ seq, make_temporal_dither_schedule 5 192 2 = .ok seq ∧
      seq.length = (2 : Int).toNat := by
  obtain ⟨s, hs, hlen, _⟩ := C5_temporal_dither 5 192 2 (by decide) (by decide)
      (Or.inl rfl) (by decide)
  exact ⟨s, hs, hlen⟩

/-- C6: in the `make_matrixmap` coordinate computation with serpentine
enabled, a position in an even panel gets the same `(x, y0, y1)` as the
non-serpentine case, while a position in an odd panel gets the column
mirrored within its panel and the rows counted from the panel's trailing
edge, with `y1 = y0 - halfPanelHeight`. -/
theorem C6_serpentine_map (w a i j : Nat) :
    ((j / w) % 2 = 0 →
      mapEntry w (2 <<< a) (1 <<< a) true i j =
        mapEntry w (2 <<< a) (1 <<< a) false i j ∧
      mapEntry w (2 <<< a) (1 <<< a) false i j =
        (((j % w : Nat) : Int),
         ((j / w : Nat) : Int) * ((2 <<< a : Nat) : Int) + (i : Int),
         ((j / w : Nat) : Int) * ((2 <<< a : Nat) : Int) + (i : Int) +
           ((1 <<< a : Nat) : Int))) ∧
    ((j / w) % 2 = 1 →
      mapEntry w (2 <<< a) (1 <<< a) true i j =
        ((w : Int) - ((j % w : Nat) : Int) - 1,
         (((j / w : Nat) : Int) + 1) * ((2 <<< a : Nat) : Int) - (i : Int) - 1,
         ((((j / w : Nat) : Int) + 1) * ((2 <<< a : Nat) : Int) - (i : Int) - 1)
           - ((1 <<< a : Nat) : Int))) := by
  constructor
  · intro h
    constructor
    · simp [mapEntry, h]
    · simp [mapEntry, h]
  · intro h
    simp only [mapEntry, h]
    norm_num
    ring

/-- C6 witness: even panel at `j = 10`, odd panel at `j = 70`, for 64-wide
panels with 4 address lines and row-select state 3. -/
theorem C6_serpentine_map_witness :
    mapEntry 64 (2 <<< 4) (1 <<< 4) true 3 10 =
      mapEntry 64 (2 <<< 4) (1 <<< 4) false 3 10 ∧
    mapEntry 64 (2 <<< 4) (1 <<< 4) true 3 70 =
      ((64 : Int) - ((70 % 64 : Nat) : Int) - 1,
       (((70 / 64 : Nat) : Int) + 1) * ((2 <<< 4 : Nat) : Int) - (3 : Int) - 1,
       ((((70 / 64 : Nat) : Int) + 1) * ((2 <<< 4 : Nat) : Int) - (3 : Int) - 1)
         - ((1 <<< 4 : Nat) : Int)) := by
  exact ⟨((C6_serpentine_map 64 4 3 10).1 (by decide)).1,
    (C6_serpentine_map 64 4 3 70).2 (by decide)⟩

/-- Successful unfolding of `make_matrixmap` when the height divides evenly. -/
theorem make_matrixmap_ok (w h a : Nat) (serp : Bool)
    (cb : Int → Int → Int → Int → Int) (hdiv : h % (2 <<< a) = 0) :
    make_matrixmap w h a serp cb =
      .ok ((List.range (1 <<< a)).flatMap (fun i =>
        (List.range (w * (h / (2 <<< a)))).flatMap (fun j =>
          let e := mapEntry w (2 <<< a) (1 <<< a) serp i j
          [cb w h e.1 e.2.1, cb w h e.1 e.2.2]))) := by
  simp [make_matrixmap, hdiv]

/-- C7: `make_matrixmap` fails exactly when the height is not a multiple of
the panel height `2 * 2 ^ addressLines`; when it is, the map has length
`pixelsAcross * 2 * 2 ^ addressLines` with
`pixelsAcross = width * (height / (2 * 2 ^ addressLines))`. -/
theorem C7_matrixmap_length (w h a : Nat) (serp : Bool)
    (cb : Int → Int → Int → Int → Int) :
    ((∃ e, make_matrixmap w h a serp cb = .error e) ↔ h % (2 * 2 ^ a) ≠ 0) ∧
    (h % (2 * 2 ^ a) = 0 →
      ∃ m, make_matrixmap w h a serp cb = .ok m ∧
        m.length = (w * (h / (2 * 2 ^ a))) * (2 * 2 ^ a)) := by
  have hsh : (2 : Nat) <<< a = 2 * 2 ^ a := by rw [Nat.shiftLeft_eq]
  have hsh1 : (1 : Nat) <<< a = 2 ^ a := by rw [Nat.shiftLeft_eq, one_mul]
  constructor
  · by_cases hc : h % (2 * 2 ^ a) = 0
    · rw [make_matrixmap_ok w h a serp cb (by rw [hsh]; exact hc)]
      simp [hc]
    · simp [make_matrixmap, hsh, hc]
  · intro hc
    refine ⟨_, make_matrixmap_ok w h a serp cb (by rw [hsh]; exact hc), ?_⟩
    have h1 : ∀ b, b < 1 <<< a →
        ((List.range (w * (h / (2 <<< a)))).flatMap (fun j =>
          let e := mapEntry w (2 <<< a) (1 <<< a) serp b j
          [cb w h e.1 e.2.1, cb w h e.1 e.2.2])).length
        = (w * (h / (2 <<< a))) * 2 := fun b _ =>
      length_flatMap_range 2 _ (w * (h / (2 <<< a))) (fun d _ => rfl)
    rw [length_flatMap_range ((w * (h / (2 <<< a))) * 2) _ (1 <<< a) h1,
      hsh, hsh1]
    ring

/-- C7 witness: a 2x2 canvas with 0 address lines divides evenly and yields
a map of length 4. -/
theorem C7_matrixmap_length_witness :
    ∃ m, make_matrixmap 2 2 0 false orientation_normal = .ok m ∧
      m.length = (2 * (2 / (2 * 2 ^ 0))) * (2 * 2 ^ 0) := by
  exact (C7_matrixmap_length 2 2 0 false orientation_normal).2 (by decide)

/-- C3 counterexample: for width 2, 0 address lines, height 2 (a single
vertical stack), the non-serpentine normal-orientation map is
`[0, 2, 1, 3]`, which is not the row-major identity sequence. -/
theorem C3_counterexample :
    make_matrixmap 2 2 0 false orientation_normal = .ok [0, 2, 1, 3] ∧
    ([0, 2, 1, 3] : List Int) ≠ [0, 1, 2, 3] := by
  constructor
  · rfl
  · decide

/-- C3 (amended): with serpentine disabled, the normal orientation and
height `2 * 2 ^ addressLines`, the map interleaves the two half-panel rows:
entry `2k` is the row-major offset `k` and entry `2k + 1` is
`k + width * 2 ^ addressLines`. -/
theorem C3_interleaved_identity (w a : Nat) :
    ∃ m, make_matrixmap w (2 * 2 ^ a) a false orientation_normal = .ok m ∧
      m.length = w * (2 * 2 ^ a) ∧
      ∀ k, k < w * 2 ^ a →
        m[2 * k]? = some ((k : Nat) : Int) ∧
        m[2 * k + 1]? = some ((k + w * 2 ^ a : Nat) : Int) := by
  have hsh : (2 : Nat) <<< a = 2 * 2 ^ a := by rw [Nat.shiftLeft_eq]
  have hsh1 : (1 : Nat) <<< a = 2 ^ a := by rw [Nat.shiftLeft_eq, one_mul]
  have hdiv : (2 * 2 ^ a) % (2 <<< a) = 0 := by
    rw [hsh]
    exact Nat.mod_self _
  have hv : (2 * 2 ^ a) / (2 <<< a) = 1 := by
    rw [hsh]
    exact Nat.div_self (by positivity)
  have hok := make_matrixmap_ok w (2 * 2 ^ a) a false orientation_normal hdiv
  rw [hv, Nat.mul_one] at hok
  refine ⟨_, hok, ?_, ?_⟩
  · have h1 : ∀ b, b < 1 <<< a →
        ((List.range w).flatMap (fun j =>
          let e := mapEntry w (2 <<< a) (1 <<< a) false b j
          [orientation_normal w ((2 * 2 ^ a : Nat) : Int) e.1 e.2.1,
           orientation_normal w ((2 * 2 ^ a : Nat) : Int) e.1 e.2.2])).length = w * 2 :=
      fun b _ => length_flatMap_range 2 _ w (fun d _ => rfl)
    rw [length_flatMap_range (w * 2) _ (1 <<< a) h1, hsh1]
    ring
  · intro k hk
    have hw : w ≠ 0 := by
      rintro rfl
      simp at hk
    have hw' : 0 < w := Nat.pos_of_ne_zero hw
    have hj : k % w < w := Nat.mod_lt _ hw'
    have hik : k / w < 2 ^ a := Nat.div_lt_of_lt_mul hk
    have hek : w * (k / w) + k % w = k := Nat.div_add_mod k w
    have h1 : ∀ b, b < 1 <<< a →
        ((List.range w).flatMap (fun j =>
          let e := mapEntry w (2 <<< a) (1 <<< a) false b j
          [orientation_normal w ((2 * 2 ^ a : Nat) : Int) e.1 e.2.1,
           orientation_normal w ((2 * 2 ^ a : Nat) : Int) e.1 e.2.2])).length = w * 2 :=
      fun b _ => length_flatMap_range 2 _ w (fun d _ => rfl)
    constructor
    · have hidx : 2 * k = (k / w) * (w * 2) + 2 * (k % w) := by
        conv_lhs => rw [← hek]
        ring
      rw [hidx,
        getElem?_flatMap_range (w * 2) _ (k / w) (2 * (k % w)) (by omega)
          (1 <<< a) h1 (by rw [hsh1]; exact hik)]
      have hidx2 : 2 * (k % w) = (k % w) * 2 + 0 := by ring
      rw [hidx2,
        getElem?_flatMap_range 2 (fun j =>
          let e := mapEntry w (2 <<< a) (1 <<< a) false (k / w) j
          [orientation_normal w ((2 * 2 ^ a : Nat) : Int) e.1 e.2.1,
           orientation_normal w ((2 * 2 ^ a : Nat) : Int) e.1 e.2.2])
          (k % w) 0 (by omega) w (fun d _ => rfl) hj]
      simp [mapEntry, orientation_normal, Nat.mod_eq_of_lt hj,
        Nat.div_eq_of_lt hj]
      conv_rhs => rw [← hek]
      push_cast
      ring
    · have hidx : 2 * k + 1 = (k / w) * (w * 2) + (2 * (k % w) + 1) := by
        conv_lhs => rw [← hek]
        ring
      rw [hidx,
        getElem?_flatMap_range (w * 2) _ (k / w) (2 * (k % w) + 1) (by omega)
          (1 <<< a) h1 (by rw [hsh1]; exact hik)]
      have hidx2 : 2 * (k % w) + 1 = (k % w) * 2 + 1 := by ring
      rw [hidx2,
        getElem?_flatMap_range 2 (fun j =>
          let e := mapEntry w (2 <<< a) (1 <<< a) false (k / w) j
          [orientation_normal w ((2 * 2 ^ a : Nat) : Int) e.1 e.2.1,
           orientation_normal w ((2 * 2 ^ a : Nat) : Int) e.1 e.2.2])
          (k % w) 1 (by omega) w (fun d _ => rfl) hj]
      simp [mapEntry, orientation_normal, Nat.mod_eq_of_lt hj,
        Nat.div_eq_of_lt hj, hsh1]
      conv_rhs => rw [← hek]
      push_cast
      ring

/-- C3 witness at width 2, 0 address lines: the map entry at position 2
is the row-major offset 1 and the entry at position 3 is `1 + 2`. -/
theorem C3_interleaved_identity_witness :
    ∃ m, make_matrixmap 2 (2 * 2 ^ 0) 0 false orientation_normal = .ok m ∧
      m.length = 2 * (2 * 2 ^ 0) ∧
      (m[2 * 1]? = some ((1 : Nat) : Int) ∧
       m[2 * 1 + 1]? = some ((1 + 2 * 2 ^ 0 : Nat) : Int)) := by
  obtain ⟨m, h1, h2, h3⟩ := C3_interleaved_identity 2 0
  exact ⟨m, h1, h2, h3 1 (by decide)⟩

/-- C9 witness: a map of length 3 is rejected when
`(n_lanes << n_addr_lines) * pixels_across = 4`. -/
theorem C9_geometry_map_size_witness :
    ∃ e, matrix_geometry.ofMapSchedules 2 0 2 2 [0, 1, 2] 2 [] = .error e :=
  (C9_geometry_map_size 2 0 2 2 [0, 1, 2] 2 []).1.mpr (by decide)
